import Mathlib

/-!
Verification of the text-line reconstruction layer of pdf2docx
(`src/pdf2docx/text/TextSpan.py` and `src/pdf2docx/text/Lines.py`).

The two Python files are shallowly embedded below.  Pure fragments become
Lean functions; the Python statements that raise at runtime (assignment to
a getter-only property, a call with the wrong arity, a constructor call
missing its required argument, division by zero) are embedded with
`Except PyErr`.  Classes whose sources are not part of this repository
slice (`BBox`, `Char`, `Rectangle`, `Line`, `Collection`, the `fitz`
rectangle type, the layout constants) are modelled from the specification;
each such definition carries a doc comment starting `Modelled from the
spec:` and external predicates whose behaviour the claims do not fix are
taken as parameters.
-/

namespace Pdf2docx

/-- Modelled from the spec: the geometric rectangle type of the external
`fitz` library (`fitz.Rect`), four coordinates `(x0, y0, x1, y1)`.
Coordinates are rationals. -/
structure FRect where
  x0 : ℚ
  y0 : ℚ
  x1 : ℚ
  y1 : ℚ
deriving Repr, DecidableEq

namespace FRect

/-- Modelled from the spec: a `fitz` rectangle is empty when its width or
height is not positive; `if not intsec:` in the source tests exactly this
("Compute the intersection ... If empty, return the run unchanged"). -/
def isEmpty (r : FRect) : Bool :=
  r.x1 ≤ r.x0 ∨ r.y1 ≤ r.y0

/-- Modelled from the spec: `fitz` rectangle intersection, the operator
`&` in the source ("the intersection of the shape's bbox with this run's
bbox"). -/
def inter (a b : FRect) : FRect :=
  ⟨max a.x0 b.x0, max a.y0 b.y0, min a.x1 b.x1, min a.y1 b.y1⟩

/-- Modelled from the spec: `fitz.Rect.contains`, full containment of a
rectangle ("if `rect` fully contains this run's bbox"). -/
def containsRect (r b : FRect) : Bool :=
  r.x0 ≤ b.x0 ∧ r.y0 ≤ b.y0 ∧ b.x1 ≤ r.x1 ∧ b.y1 ≤ r.y1

/-- Modelled from the spec: `fitz.Rect.intersects`, whether the two
rectangles have a non-empty intersection ("if `rect` does not intersect
this run's bbox at all"). -/
def intersects (r b : FRect) : Bool :=
  ¬ (inter r b).isEmpty

/-- Modelled from the spec: `fitz` rectangle union (operator `|`), the
smallest rectangle containing both; an empty operand yields the other
operand (the spec notes the aggregate in `intersect` "equals the original
run's bbox", which requires the empty start rectangle to be absorbed). -/
def union (a b : FRect) : FRect :=
  if a.isEmpty then b
  else if b.isEmpty then a
  else ⟨min a.x0 b.x0, min a.y0 b.y0, max a.x1 b.x1, max a.y1 b.y1⟩

/-- Modelled from the spec: `fitz` rectangles are indexable,
`bbox[0] = x0, bbox[1] = y0, bbox[2] = x1, bbox[3] = y1`; the source
selects coordinates by the indices `idx0`, `idx1`. -/
def idx (r : FRect) : Nat → ℚ
  | 0 => r.x0
  | 1 => r.y0
  | 2 => r.x1
  | _ => r.y1

/-- Modelled from the spec: `fitz.Rect()`, the zero rectangle used as the
start of the aggregate in `TextSpan.intersect`. -/
def zero : FRect := ⟨0, 0, 0, 0⟩

end FRect

/-- The raw record of one character, as produced by the extraction
library: a bounding box and a single glyph value (spec section 6). -/
structure RawChar where
  bbox : FRect
  c : String
deriving Repr, DecidableEq

/-- Modelled from the spec: the external `Char` value object — "has a
bounding box, a single glyph value"; constructed from a raw character
record. -/
structure Char where
  bbox : FRect
  c : String
deriving Repr, DecidableEq

/-- Modelled from the spec: `Char(raw)` construction from a raw record. -/
def Char.ofRaw (raw : RawChar) : Char :=
  { bbox := raw.bbox, c := raw.c }

/-- Modelled from the spec: `Char.store()`, the serialized character
record. -/
def Char.store (ch : Char) : RawChar :=
  { bbox := ch.bbox, c := ch.c }

/-- A style-overlay record `{type: int, color: int}` appended to a span's
style list (TextSpan.py data-structure comment and spec section 3). -/
structure TextStyle where
  type : Int
  color : Int
deriving Repr, DecidableEq

/-- The raw dict a `TextSpan` is constructed from (TextSpan.py, module
doc).  Every field the constructor reads with `raw.get(key, default)` is
an `Option`; `font` conflates an absent key with an explicit `None`,
exactly as `raw.get('font', None)` does. -/
structure RawSpan where
  bbox : Option FRect
  color : Option Int
  font : Option String
  size : Option ℚ
  flags : Option Int
  chars : Option (List RawChar)
deriving Repr, DecidableEq

/-- `TextSpan` (TextSpan.py lines 45-57).  `textCache` models the private
attribute `_text` backing the getter-only property `text`: `None` until
the property is first read, then the joined glyphs. -/
structure TextSpan where
  bbox : FRect
  color : Int
  font : Option String
  size : ℚ
  flags : Int
  chars : List Char
  textCache : Option String
  style : List TextStyle
deriving Repr, DecidableEq

/-- `TextSpan.__init__(raw)` (TextSpan.py lines 47-57): reads
`color`/`font`/`size`/`flags`/`chars` with their defaults, builds a `Char`
per raw character, sets `_text = None` and `style = []`.  The `bbox`
handling of the base class `BBox` is modelled from the spec (the raw
record carries the bbox; a missing bbox is modelled as the zero
rectangle). -/
def TextSpan.ofRaw (raw : RawSpan) : TextSpan :=
  { bbox := raw.bbox.getD FRect.zero
    color := raw.color.getD 0
    font := raw.font
    size := raw.size.getD 12
    flags := raw.flags.getD 0
    chars := (raw.chars.getD []).map Char.ofRaw
    textCache := none
    style := [] }

/-- The property `TextSpan.text` (TextSpan.py lines 60-67): joins the
glyphs of `chars` on first read and caches the result in `_text`.
Returns the text together with the receiver's state after the read. -/
def TextSpan.text (s : TextSpan) : String × TextSpan :=
  match s.textCache with
  | some t => (t, s)
  | none =>
      let t := String.join (s.chars.map (fun ch => ch.c))
      (t, { s with textCache := some t })

/-- `TextSpan.store()` (TextSpan.py lines 69-80): the base record
(`BBox.store`, modelled from the spec as writing the bbox) updated with
`color`, `font`, `size`, `flags` and the stored characters. -/
def TextSpan.store (s : TextSpan) : RawSpan :=
  { bbox := some s.bbox
    color := some s.color
    font := s.font
    size := some s.size
    flags := some s.flags
    chars := some (s.chars.map Char.store) }

/-- Modelled from the spec: the external style-overlay shape
(`Rectangle`): a bbox, the per-character containment test
`Char.contained_in_rect` ("a predicate 'is contained in a given
rectangle' used for style-overlap testing") and `to_text_style`
("an operation 'derive a text style from the overlap with a given run',
returning either a style record or no record"). -/
structure Rectangle where
  bbox : FRect
  containsChar : Char → Bool
  toTextStyle : TextSpan → Option TextStyle

/-- The Python runtime errors the embedded statements can raise. -/
inductive PyErr where
  | attributeError (msg : String)
  | typeError (msg : String)
  | zeroDivisionError
deriving Repr, DecidableEq

/-- `TextSpan.split(rect)` (TextSpan.py lines 91-152).  Returns the
method's outcome together with the receiver's state after the call.

With no intersection the span itself is returned unchanged (line 97).
Otherwise the contained characters are collected by index (lines
112-118), and each of the three part-building branches assigns
`split_span.text = self.text[...]` (lines 127, 135, 149); `text` is a
getter-only property (lines 60-67), so the first branch taken raises
`AttributeError` — after its right-hand side `self.text[...]` has been
evaluated, caching the derived text on the receiver.  The branch guards
are `pos > 0` (left part), `length > 0` (middle part) and
`pos_end < len(self.chars)` (right part); when the intersection is
non-empty and the span has no characters at all, no branch fires and the
empty list of parts is returned. -/
def TextSpan.split (s : TextSpan) (rect : Rectangle) :
    Except PyErr (List TextSpan) × TextSpan :=
  let intsec := FRect.inter rect.bbox s.bbox
  if intsec.isEmpty then (Except.ok [s], s)
  else
    let indexChars := (List.enum s.chars).filter (fun ic => rect.containsChar ic.2)
    let pos : Int := match indexChars.head? with
      | some ic => Int.ofNat ic.1
      | none => -1
    let length : Int := Int.ofNat indexChars.length
    let posEnd : Int := max (pos + length) 0
    if 0 < pos then
      -- left part: `split_span.text = self.text[0:pos]` raises (line 127)
      (Except.error (PyErr.attributeError "cannot set attribute text"), (s.text).2)
    else if 0 < length then
      -- middle part: `split_span.text = self.text[pos:pos_end]` raises (line 135)
      (Except.error (PyErr.attributeError "cannot set attribute text"), (s.text).2)
    else if posEnd < Int.ofNat s.chars.length then
      -- right part: `split_span.text = self.text[pos_end:]` raises (line 149)
      (Except.error (PyErr.attributeError "cannot set attribute text"), (s.text).2)
    else
      (Except.ok [], s)

/-- Modelled from the spec: `utils.get_main_bbox(bbox1, bbox2, 0.2)` of
the external utils module — whether the two boxes "overlap ... by at
least a 0.2 main-overlap ratio": intersection area over the smaller of
the two areas, compared with the threshold. -/
def get_main_bbox (a b : FRect) (threshold : ℚ) : Bool :=
  let i := FRect.inter a b
  if i.isEmpty then false
  else
    let areaI := (i.x1 - i.x0) * (i.y1 - i.y0)
    let areaA := (a.x1 - a.x0) * (a.y1 - a.y0)
    let areaB := (b.x1 - b.x0) * (b.y1 - b.y0)
    threshold * min areaA areaB ≤ areaI

/-- `TextSpan.intersect(rect)` (TextSpan.py lines 155-180).  A rectangle
fully containing the span's bbox yields a full copy (line 159,
`self.copy()` — the external deep copy, modelled as the value itself).
When the rectangle does not intersect the bbox, and likewise when the
character filter keeps nothing, the source evaluates `TextSpan()` (lines
163 and 173) — but `TextSpan.__init__` (line 47) requires the positional
argument `raw`, so both calls raise `TypeError`.  Otherwise the kept
characters replace `chars` and `span.update(span_bbox)` (external
`BBox.update`, modelled from the spec as replacing the bbox) installs the
aggregate box, which the loop unions from `self.bbox` — not the kept
character's bbox — on every kept character (line 171, the quirk the spec
records). -/
def TextSpan.intersect (s : TextSpan) (rect : FRect) : Except PyErr TextSpan :=
  if rect.containsRect s.bbox then Except.ok s
  else if ¬ rect.intersects s.bbox then
    Except.error (PyErr.typeError "TextSpan() missing required positional argument raw")
  else
    let spanChars := s.chars.filter (fun ch => get_main_bbox ch.bbox rect (1/5))
    let spanBbox := spanChars.foldl (fun acc _ => acc.union s.bbox) FRect.zero
    if spanChars.isEmpty then
      Except.error (PyErr.typeError "TextSpan() missing required positional argument raw")
    else
      Except.ok { s with chars := spanChars, bbox := spanBbox }

/-- Modelled from the spec: the external inline-image placeholder
(`ImageSpan`) — participates in a line's run sequence like a text-run but
"is never split by a style shape".  Only its bounding box matters to this
layer. -/
structure ImageSpan where
  bbox : FRect
deriving Repr, DecidableEq

/-- One run of a line's run sequence: a text-run or an inline-image
placeholder (the `isinstance(span, ImageSpan)` dispatch in
Lines.parse_text_format). -/
inductive Span where
  | textSpan (s : TextSpan)
  | imageSpan (s : ImageSpan)
deriving Repr, DecidableEq

/-- Whether the run is a text-run (the negative of the
`isinstance(span, ImageSpan)` test). -/
def Span.isText : Span → Bool
  | Span.textSpan _ => true
  | Span.imageSpan _ => false

/-- The derived text of a run: the joined glyphs of a text-run, nothing
for an image placeholder. -/
def Span.textOf : Span → String
  | Span.textSpan s => String.join (s.chars.map (fun ch => ch.c))
  | Span.imageSpan _ => ""

/-- Modelled from the spec: the external `Line` — "has a bounding box, an
ordered sequence of runs (text-runs and/or inline-image placeholders), a
derived text value, a parent-block identity tag (`pid`), a mutable
`line_break` flag" and a text direction.  The geometric predicates the
collection relies on (`in_same_row`, `get_main_bbox`, the reading-order
comparison) are external behaviour the claims do not fix; the operations
below take them as parameters. -/
structure Line where
  bbox : FRect
  spans : List Span
  pid : Int
  line_break : Int
  is_horizontal_text : Bool
deriving Repr, DecidableEq

/-- Modelled from the spec: the line's derived text value — the
concatenated text of its runs in order. -/
def Line.text (l : Line) : String :=
  String.join (l.spans.map Span.textOf)

/-- Modelled from the spec: Python `not text.strip()` — the text is
"blank/whitespace-only" (empty or whitespace characters only). -/
def isBlankText (s : String) : Bool :=
  s.toList.all (fun c => c.isWhitespace)

/-- Modelled from the spec: `Line.get_expand_bbox(d)` — "the line's bbox
expanded by a fixed tolerance margin". -/
def Line.get_expand_bbox (l : Line) (d : ℚ) : FRect :=
  ⟨l.bbox.x0 - d, l.bbox.y0 - d, l.bbox.x1 + d, l.bbox.y1 + d⟩

/-- Modelled from the spec: `Line.add(spans)` — "the candidate's runs are
appended onto the last accepted line in place" (Lines.join); bbox
bookkeeping of the external class is not modelled, no claim depends on
it. -/
def Line.add (l : Line) (spans : List Span) : Line :=
  { l with spans := l.spans ++ spans }

/-- Modelled from the spec: the external text-alignment enumeration; only
the distinction RIGHT vs. anything else matters to this layer. -/
inductive TextAlignment where
  | LEFT
  | CENTER
  | RIGHT
  | JUSTIFY
deriving Repr, DecidableEq

/-- Modelled from the spec: the external owning block — "exposes its own
bounding box, text direction (horizontal/vertical), alignment (e.g.,
RIGHT vs. other), and four indentation-bookkeeping scalars". -/
structure Block where
  bbox : FRect
  is_horizontal_text : Bool
  alignment : TextAlignment
  left_space : ℚ
  left_space_total : ℚ
  right_space : ℚ
  right_space_total : ℚ
deriving Repr, DecidableEq

namespace Lines

/-- The flattened run sequence of a list of lines, in line order then
intra-line order. -/
def allSpans (ls : List Line) : List Span :=
  (ls.map Line.spans).flatten

/-- The row-partition loop of `Lines.sort` (Lines.py lines 155-165):
`cur` is the row being built, `prev` its last element; a line not in the
same row as `prev` starts a new row. -/
def splitRowsGo (sameRow : Line → Line → Bool) (cur : List Line) (prev : Line) :
    List Line → List (List Line)
  | [] => [cur]
  | l :: rest =>
      if sameRow l prev then splitRowsGo sameRow (cur ++ [l]) l rest
      else cur :: splitRowsGo sameRow [l] l rest

/-- `Lines.sort`'s partition of the sorted sequence into consecutive
rows (Lines.py lines 154-165). -/
def splitRows (sameRow : Line → Line → Bool) : List Line → List (List Line)
  | [] => []
  | l :: rest => splitRowsGo sameRow [l] l rest

/-- `Lines.sort()` (Lines.py lines 134-172): sort in reading order
(`sort_in_reading_order`, an external `Collection` method, modelled from
the spec as a comparison sort with the external reading-order
comparator `readingOrder`), partition into rows with the external
`in_same_row` predicate, then re-sort each row by bbox index 0 for
horizontal text or 3 for vertical (`self.is_horizontal_text` is an
external `Collection` property, taken as the parameter
`isHorizontal`). -/
def sort (readingOrder : Line → Line → Bool) (sameRow : Line → Line → Bool)
    (isHorizontal : Bool) (lines : List Line) : List Line :=
  let sorted := lines.mergeSort readingOrder
  let rows := splitRows sameRow sorted
  let i := if isHorizontal then 0 else 3
  (rows.map (fun row => row.mergeSort (fun a b => a.bbox.idx i ≤ b.bbox.idx i))).flatten

/-- One iteration of the scan in `Lines.join` (Lines.py lines 67-87):
the first line starts the output; a candidate overlapping the last
accepted line beyond `overlapT` is discarded (the diagnostic print is
ignored); a candidate not in the same row, or farther than `mergeT` from
the last accepted line's right edge, is appended; otherwise its runs are
added onto the last accepted line. -/
def joinStep (getMainBbox : Line → Line → ℚ → Bool) (sameRow : Line → Line → Bool)
    (overlapT mergeT : ℚ) (acc : List Line) (line : Line) : List Line :=
  match acc.getLast? with
  | none => [line]
  | some last =>
      if getMainBbox line last overlapT then acc
      else if ¬ sameRow line last then acc ++ [line]
      else if mergeT < |line.bbox.x0 - last.bbox.x1| then acc ++ [line]
      else acc.dropLast ++ [last.add line.spans]

/-- `Lines.join(line_overlap_threshold, line_merging_threshold)`
(Lines.py lines 57-90): a no-op on the empty collection; otherwise sort,
scan with `joinStep`, and replace the contents with the result
(`self.reset(lines)`, the external `Collection.reset`, modelled as
returning the new contents). -/
def join (readingOrder sameRow : Line → Line → Bool) (isHorizontal : Bool)
    (getMainBbox : Line → Line → ℚ → Bool) (overlapT mergeT : ℚ)
    (lines : List Line) : List Line :=
  if lines.isEmpty then lines
  else
    (sort readingOrder sameRow isHorizontal lines).foldl
      (joinStep getMainBbox sameRow overlapT mergeT) []

/-- Modelled from the spec: the collection's aggregate bounding box
(`Collection.bbox`, "bounding-box aggregation over all members"). -/
def aggBbox (ls : List Line) : FRect :=
  ls.foldl (fun acc l => acc.union l.bbox) FRect.zero

/-- `Lines.strip()` (Lines.py lines 122-131): strip every line
(`Line.strip` is external, taken as the parameter `stripLine`, returning
the modification flag and the stripped line), set `stripped` iff any
line reported a change, and propagate the collection's aggregate bbox to
the owning block (`self._parent.update_bbox(self.bbox)`) exactly in
that case — the third component is the propagated box, `none` when
`update_bbox` is not called. -/
def strip (stripLine : Line → Bool × Line) (lines : List Line) :
    Bool × List Line × Option FRect :=
  let results := lines.map stripLine
  let stripped := results.any (fun r => r.1)
  let newLines := results.map (fun r => r.2)
  (stripped, newLines, if stripped then some (aggBbox newLines) else none)

/-- The loop of `Lines.parse_text_format(rect)` (Lines.py lines
205-226).  For each line: intersect the shape's bbox with the
`MAJOR_DIST`-expanded line bbox; with no intersection, stop scanning when
the shape lies entirely above the line, else continue.  With an
intersection, image spans are kept; for a text span the source calls
`span.split(rect, line.is_horizontal_text)` (line 221) — but
`TextSpan.split` (TextSpan.py line 91) accepts a single argument besides
`self`, so Python raises `TypeError` at the first text span. -/
def parseTextFormatGo (rect : Rectangle) (majorDist : ℚ) :
    List Line → Bool → Except PyErr (List Line × Bool)
  | [], flag => Except.ok ([], flag)
  | line :: rest, flag =>
      let intsec := FRect.inter rect.bbox (line.get_expand_bbox majorDist)
      if intsec.isEmpty then
        if rect.bbox.y1 < line.bbox.y0 then Except.ok (line :: rest, flag)
        else
          match parseTextFormatGo rect majorDist rest flag with
          | Except.ok (ls, f) => Except.ok (line :: ls, f)
          | Except.error e => Except.error e
      else
        if line.spans.any Span.isText then
          Except.error (PyErr.typeError "split() takes 2 positional arguments but 3 were given")
        else
          match parseTextFormatGo rect majorDist rest flag with
          | Except.ok (ls, f) => Except.ok (line :: ls, f)
          | Except.error e => Except.error e

/-- `Lines.parse_text_format(rect)` (Lines.py lines 197-228).
`MAJOR_DIST` is a constant of the external layout-constants module and
is taken as the parameter `majorDist`.  Returns the lines after the
call and the `flag` result, or the raised error. -/
def parse_text_format (rect : Rectangle) (majorDist : ℚ) (lines : List Line) :
    Except PyErr (List Line × Bool) :=
  parseTextFormatGo rect majorDist lines false

/-- The loop of `Lines.parse_line_break` (Lines.py lines 253-269).
`lastOpt` is `self._instances[-1]`; the comparison `line ==
self._instances[-1]` is modelled as structural equality (the external
`Line` defines no custom equality; identity coincides with structural
equality on collections without duplicate lines).  The division on
line 261 raises `ZeroDivisionError` when the block width is zero. -/
def parseLineBreakGo (block : Block) (sameRow : Line → Line → Bool)
    (threshold deltaSpace width : ℚ) (i : Nat) (lastOpt : Option Line) :
    List Line → Except PyErr (List Line)
  | [] => Except.ok []
  | l :: rest =>
      let lb : Except PyErr Int :=
        if lastOpt = some l then Except.ok 0
        else
          match rest.head? with
          | none => Except.ok 0
          | some nxt =>
              if sameRow l nxt then Except.ok 0
              else if width = 0 then Except.error PyErr.zeroDivisionError
              else if threshold < (|block.bbox.idx i - l.bbox.idx i| + deltaSpace) / width then
                Except.ok 1
              else if isBlankText nxt.text then Except.ok 1
              else Except.ok 0
      match lb with
      | Except.error e => Except.error e
      | Except.ok v =>
          match parseLineBreakGo block sameRow threshold deltaSpace width i lastOpt rest with
          | Except.error e => Except.error e
          | Except.ok tail => Except.ok ({ l with line_break := v } :: tail)

/-- `idx0` of `Lines.parse_line_break` (Lines.py line 241): 0 for
horizontal text, 3 for vertical. -/
def blockIdx0 (block : Block) : Nat :=
  if block.is_horizontal_text then 0 else 3

/-- `idx1 = (idx0+2) % 4` (Lines.py line 242). -/
def blockIdx1 (block : Block) : Nat :=
  (blockIdx0 block + 2) % 4

/-- The block width `abs(block.bbox[idx1]-block.bbox[idx0])` (Lines.py
line 243). -/
def blockWidth (block : Block) : ℚ :=
  |block.bbox.idx (blockIdx1 block) - block.bbox.idx (blockIdx0 block)|

/-- `delta_space` of `Lines.parse_line_break` (Lines.py lines
246-251). -/
def deltaSpace (block : Block) : ℚ :=
  if block.alignment = TextAlignment.RIGHT then
    block.left_space_total - block.left_space
  else
    block.right_space_total - block.right_space

/-- The comparison edge index `idx` of `Lines.parse_line_break`
(Lines.py lines 246-251): `idx0` for RIGHT alignment, `idx1`
otherwise. -/
def compareEdge (block : Block) : Nat :=
  if block.alignment = TextAlignment.RIGHT then blockIdx0 block else blockIdx1 block

/-- `Lines.parse_line_break(line_free_space_ratio_threshold)` (Lines.py
lines 231-269): compute the edge indices from the block's text
direction, the block width, the free-space delta and comparison edge
from the alignment, then set each line's `line_break` per the loop. -/
def parse_line_break (block : Block) (sameRow : Line → Line → Bool)
    (threshold : ℚ) (lines : List Line) : Except PyErr (List Line) :=
  parseLineBreakGo block sameRow threshold (deltaSpace block) (blockWidth block)
    (compareEdge block) lines.getLast? lines

end Lines

/-! ## Concrete exhibits -/

/-- A character with glyph `a`. -/
def charA : Char := ⟨⟨0, 0, 2, 10⟩, "a"⟩

/-- A character with glyph `b`. -/
def charB : Char := ⟨⟨2, 0, 4, 10⟩, "b"⟩

/-- A two-character text-run, characters `a` then `b`. -/
def spanAB : TextSpan :=
  ⟨⟨0, 0, 10, 10⟩, 0, none, 12, 0, [charA, charB], none, []⟩

/-- A style shape whose bbox intersects `spanAB` and whose
contained-character test selects exactly the second character
(index 1), a contiguous block with `pos = 1`, `length = 1`. -/
def rectMid : Rectangle :=
  ⟨⟨2, 0, 4, 10⟩, fun ch => decide (2 ≤ ch.bbox.x0), fun _ => some ⟨1, 5⟩⟩

/-- A style shape whose bbox is disjoint from `spanAB.bbox`. -/
def rectFar : Rectangle :=
  ⟨⟨20, 20, 30, 30⟩, fun _ => false, fun _ => none⟩

/-- A line holding the single text-run `spanAB`. -/
def lineA : Line := ⟨⟨0, 0, 10, 10⟩, [Span.textSpan spanAB], 0, 0, true⟩

/-! ## Claims -/

/-- C1: the claim says `TextSpan.split` returns parts whose character
sequences concatenate to the original characters when the
contained-character test selects a contiguous block with `pos ≥ 0`.  On
the code this situation never returns parts: on `spanAB` and `rectMid`
the test selects exactly the contiguous block `[1, 2)` (first conjunct),
and `split` raises `AttributeError` at the assignment to the getter-only
property `text` (second conjunct) instead of returning the parts. -/
theorem C1_split_normal_case_raises :
    ((spanAB.chars.enum.filter (fun ic => rectMid.containsChar ic.2)).map Prod.fst = [1]) ∧
    (TextSpan.split spanAB rectMid).1 =
      Except.error (PyErr.attributeError "cannot set attribute text") :=
  ⟨rfl, rfl⟩

/-- C2: the claim says `Lines.parse_text_format` processes every line
whose expanded bbox intersects the shape without raising, replacing each
text-run by its split.  On a one-line collection whose line holds a
text-run and intersects the shape, the call `span.split(rect,
line.is_horizontal_text)` (Lines.py line 221) passes two arguments to
the one-argument `TextSpan.split` (TextSpan.py line 91), so the method
raises `TypeError`. -/
theorem C2_parse_text_format_raises :
    Lines.parse_text_format rectMid 5 [lineA] =
      Except.error (PyErr.typeError "split() takes 2 positional arguments but 3 were given") := by
  simp only [Lines.parse_text_format, Lines.parseTextFormatGo, lineA, rectMid, spanAB,
    Line.get_expand_bbox, FRect.inter, FRect.isEmpty]
  norm_num [Span.isText]

/-- C3: the claim says `TextSpan.intersect` returns an empty sentinel
run when the rectangle does not intersect the run's bbox, and a full
copy when the rectangle contains the bbox.  The containment half holds
(second conjunct), but the no-overlap branch evaluates `TextSpan()`
(TextSpan.py line 163) whose `__init__` (line 47) requires the
positional argument `raw`, so it raises `TypeError` instead of
returning a sentinel (first conjunct). -/
theorem C3_intersect_no_overlap_raises :
    TextSpan.intersect spanAB ⟨20, 20, 30, 30⟩ =
      Except.error (PyErr.typeError "TextSpan() missing required positional argument raw") ∧
    TextSpan.intersect spanAB ⟨-1, -1, 11, 11⟩ = Except.ok spanAB :=
  ⟨rfl, rfl⟩

/-- A character record round-trips through `store`. -/
theorem Char.ofRaw_store (ch : Char) : Char.ofRaw ch.store = ch := rfl

/-- C5: `store()` followed by reconstruction from the stored record
yields a run with identical bbox, color, font, size, flags, and
character sequence.  Stated for every run, so in particular for one
constructed from a valid raw record. -/
theorem C5_store_round_trip (s : TextSpan) :
    (TextSpan.ofRaw s.store).bbox = s.bbox ∧
    (TextSpan.ofRaw s.store).color = s.color ∧
    (TextSpan.ofRaw s.store).font = s.font ∧
    (TextSpan.ofRaw s.store).size = s.size ∧
    (TextSpan.ofRaw s.store).flags = s.flags ∧
    (TextSpan.ofRaw s.store).chars = s.chars := by
  refine ⟨rfl, rfl, rfl, rfl, rfl, ?_⟩
  show (s.chars.map Char.store).map Char.ofRaw = s.chars
  rw [List.map_map, show Char.ofRaw ∘ Char.store = id from rfl, List.map_id]

/-- C6: a style shape whose bbox does not intersect the run's bbox makes
`split` return exactly one part, the original run itself — same bbox,
same characters, no style appended — and leaves the receiver
untouched. -/
theorem C6_split_no_intersection (s : TextSpan) (rect : Rectangle)
    (h : (FRect.inter rect.bbox s.bbox).isEmpty = true) :
    TextSpan.split s rect = (Except.ok [s], s) := by
  unfold TextSpan.split
  simp [h]

/-- Witness for C6 at a concrete disjoint run and shape. -/
theorem C6_split_no_intersection_witness :
    TextSpan.split spanAB rectFar = (Except.ok [spanAB], spanAB) :=
  C6_split_no_intersection spanAB rectFar (by decide)

/-- Reading the `text` property caches the derived text but leaves the
run's bbox, characters and style list unchanged. -/
theorem text_preserves_fields (s : TextSpan) :
    (TextSpan.text s).2.bbox = s.bbox ∧ (TextSpan.text s).2.chars = s.chars ∧
      (TextSpan.text s).2.style = s.style := by
  unfold TextSpan.text
  cases s.textCache <;> simp

/-- C9 (amended): `split` never mutates the receiver's bbox, character
list or style list; in the no-intersection case the original run itself
is returned unchanged as the only part.  When the shape's bbox does
intersect the run's bbox, no deep-copied parts are ever returned:
a run with no characters yields the empty part list without raising,
and a run with at least one character raises `AttributeError` at the
assignment to the getter-only `text` property before returning.  (As
stated the claim says every splitting case returns deep-copied parts;
see the counterexample.) -/
theorem C9_split_receiver_unchanged (s : TextSpan) (rect : Rectangle) :
    ((TextSpan.split s rect).2.bbox = s.bbox ∧
      (TextSpan.split s rect).2.chars = s.chars ∧
      (TextSpan.split s rect).2.style = s.style) ∧
    ((FRect.inter rect.bbox s.bbox).isEmpty = true →
      TextSpan.split s rect = (Except.ok [s], s)) ∧
    ((FRect.inter rect.bbox s.bbox).isEmpty = false →
      (s.chars = [] → TextSpan.split s rect = (Except.ok [], s)) ∧
      (s.chars ≠ [] → (TextSpan.split s rect).1 =
        Except.error (PyErr.attributeError "cannot set attribute text"))) := by
  refine ⟨?_, ?_, ?_⟩
  · simp only [TextSpan.split]
    split
    · exact ⟨rfl, rfl, rfl⟩
    · split
      · exact text_preserves_fields s
      · split
        · exact text_preserves_fields s
        · split
          · exact text_preserves_fields s
          · exact ⟨rfl, rfl, rfl⟩
  · intro h
    unfold TextSpan.split
    simp [h]
  · intro hint
    constructor
    · intro hc
      simp [TextSpan.split, hint, hc]
    · intro hc
      cases hic : (List.enum s.chars).filter (fun ic => rect.containsChar ic.2) with
      | nil =>
          have hlen : (0:Int) < Int.ofNat s.chars.length := by
            simpa using List.length_pos.mpr hc
          simp only [TextSpan.split, hint, Bool.false_eq_true, if_false, hic]
          simp [hlen]
          rw [if_pos (List.length_pos.mpr hc)]
      | cons ic rest =>
          have hlen : (0:Int) < Int.ofNat (ic :: rest).length := by
            simp
          simp only [TextSpan.split, hint, hic, Bool.false_eq_true, if_false]
          split
          · rfl
          · rfl

/-- Counterexample for C9 as stated: on `spanAB` and `rectMid` (a
splitting case) `split` returns no parts at all — it raises
`AttributeError` — so the returned parts are not deep copies of
anything. -/
theorem C9_split_returns_no_parts :
    (TextSpan.split spanAB rectMid).1 =
      Except.error (PyErr.attributeError "cannot set attribute text") :=
  rfl

/-- The rows built by `Lines.sort`'s partition loop flatten back to the
scanned lines, in order. -/
theorem splitRowsGo_flatten (sameRow : Line → Line → Bool) (ls : List Line) :
    ∀ cur prev, (Lines.splitRowsGo sameRow cur prev ls).flatten = cur ++ ls := by
  induction ls with
  | nil => intro cur prev; simp [Lines.splitRowsGo]
  | cons l rest ih =>
      intro cur prev
      unfold Lines.splitRowsGo
      by_cases h : sameRow l prev
      · simp [h, ih]
      · simp [h, ih]

/-- The row partition of `Lines.sort` flattens back to its input. -/
theorem splitRows_flatten (sameRow : Line → Line → Bool) (ls : List Line) :
    (Lines.splitRows sameRow ls).flatten = ls := by
  cases ls with
  | nil => rfl
  | cons l rest => simpa using splitRowsGo_flatten sameRow rest [l] l

/-- Sorting every row and flattening permutes the flattened rows. -/
theorem flatten_map_mergeSort_perm (le : Line → Line → Bool)
    (rows : List (List Line)) :
    ((rows.map (fun row => row.mergeSort le)).flatten).Perm rows.flatten := by
  induction rows with
  | nil => simp
  | cons r rest ih => simpa using (List.mergeSort_perm r le).append ih

/-- `Lines.sort` permutes the collection: reading-order sort, row
partition and intra-row re-sort neither drop nor duplicate a line. -/
theorem sort_perm (ro sameRow : Line → Line → Bool) (isH : Bool)
    (lines : List Line) :
    (Lines.sort ro sameRow isH lines).Perm lines := by
  unfold Lines.sort
  refine (flatten_map_mergeSort_perm _ _).trans ?_
  rw [splitRows_flatten]
  exact List.mergeSort_perm lines ro

/-- C10: `Lines.sort` preserves the multiset of contained lines — after
`sort()` the collection holds exactly the same lines as before, each
exactly once, in a possibly different order.  Stated for every external
reading-order comparator, same-row predicate and text direction. -/
theorem C10_sort_preserves_lines (ro sameRow : Line → Line → Bool)
    (isH : Bool) (lines : List Line) :
    (Lines.sort ro sameRow isH lines).Perm lines :=
  sort_perm ro sameRow isH lines

/-- Membership in the flattened run sequence of a list of lines. -/
theorem mem_allSpans (sp : Span) (ls : List Line) :
    sp ∈ Lines.allSpans ls ↔ ∃ l ∈ ls, sp ∈ l.spans := by
  simp [Lines.allSpans]

/-- One `Lines.join` scan step grows the output by at most one line. -/
theorem joinStep_length (g : Line → Line → ℚ → Bool) (sr : Line → Line → Bool)
    (ot mt : ℚ) (acc : List Line) (line : Line) :
    (Lines.joinStep g sr ot mt acc line).length ≤ acc.length + 1 := by
  cases hl : acc.getLast? with
  | none => simp [Lines.joinStep, hl]
  | some last =>
      simp only [Lines.joinStep, hl]
      split
      · omega
      · split
        · simp
        · split
          · simp
          · simp only [List.length_append, List.length_dropLast, List.length_cons,
              List.length_nil]
            omega

/-- The `Lines.join` scan never yields more lines than it was fed plus
what the accumulator held. -/
theorem foldl_joinStep_length (g : Line → Line → ℚ → Bool)
    (sr : Line → Line → Bool) (ot mt : ℚ) (ls : List Line) :
    ∀ acc : List Line,
      (ls.foldl (Lines.joinStep g sr ot mt) acc).length ≤ acc.length + ls.length := by
  induction ls with
  | nil => simp
  | cons l rest ih =>
      intro acc
      have h1 := ih (Lines.joinStep g sr ot mt acc l)
      have h2 := joinStep_length g sr ot mt acc l
      simp only [List.foldl_cons, List.length_cons]
      omega

/-- Every run surviving one `Lines.join` scan step came from the
accumulator or from the scanned line. -/
theorem joinStep_spans (g : Line → Line → ℚ → Bool) (sr : Line → Line → Bool)
    (ot mt : ℚ) (acc : List Line) (line : Line) (sp : Span)
    (h : sp ∈ Lines.allSpans (Lines.joinStep g sr ot mt acc line)) :
    sp ∈ Lines.allSpans acc ∨ sp ∈ line.spans := by
  cases hl : acc.getLast? with
  | none =>
      simp only [Lines.joinStep, hl] at h
      right
      simpa [mem_allSpans] using h
  | some last =>
      simp only [Lines.joinStep, hl] at h
      have hmem : last ∈ acc := List.mem_of_getLast?_eq_some hl
      split at h
      · exact Or.inl h
      · split at h
        · rw [mem_allSpans] at h
          rcases h with ⟨l, hl2, hsp⟩
          rcases List.mem_append.mp hl2 with h2 | h2
          · exact Or.inl ((mem_allSpans sp acc).mpr ⟨l, h2, hsp⟩)
          · simp at h2
            subst h2
            exact Or.inr hsp
        · split at h
          · rw [mem_allSpans] at h
            rcases h with ⟨l, hl2, hsp⟩
            rcases List.mem_append.mp hl2 with h2 | h2
            · exact Or.inl ((mem_allSpans sp acc).mpr ⟨l, h2, hsp⟩)
            · simp at h2
              subst h2
              exact Or.inr hsp
          · rw [mem_allSpans] at h
            rcases h with ⟨l, hl2, hsp⟩
            rcases List.mem_append.mp hl2 with h2 | h2
            · exact Or.inl ((mem_allSpans sp acc).mpr
                ⟨l, (List.dropLast_sublist acc).subset h2, hsp⟩)
            · simp at h2
              subst h2
              rcases List.mem_append.mp hsp with h3 | h3
              · exact Or.inl ((mem_allSpans sp acc).mpr ⟨last, hmem, h3⟩)
              · exact Or.inr h3

/-- Every run surviving the whole `Lines.join` scan came from the
accumulator or from some scanned line. -/
theorem foldl_joinStep_spans (g : Line → Line → ℚ → Bool)
    (sr : Line → Line → Bool) (ot mt : ℚ) (ls : List Line) :
    ∀ (acc : List Line) (sp : Span),
      sp ∈ Lines.allSpans (ls.foldl (Lines.joinStep g sr ot mt) acc) →
      sp ∈ Lines.allSpans acc ∨ ∃ l ∈ ls, sp ∈ l.spans := by
  induction ls with
  | nil => intro acc sp h; exact Or.inl h
  | cons l rest ih =>
      intro acc sp h
      rcases ih (Lines.joinStep g sr ot mt acc l) sp h with h2 | h2
      · rcases joinStep_spans g sr ot mt acc l sp h2 with h3 | h3
        · exact Or.inl h3
        · exact Or.inr ⟨l, List.mem_cons_self l rest, h3⟩
      · rcases h2 with ⟨m, hm, hsp⟩
        exact Or.inr ⟨m, List.mem_cons_of_mem l hm, hsp⟩

/-- C7: after `join` the collection holds at most as many lines as
before, every run in the result originates from some input line (no
fabricated content; overlap duplicates are discarded whole), and `join`
on an empty collection is a no-op.  Stated for every pair of
thresholds and all external predicates. -/
theorem C7_join_reduces_and_preserves_content (ro sameRow : Line → Line → Bool)
    (isH : Bool) (g : Line → Line → ℚ → Bool) (ot mt : ℚ) (lines : List Line) :
    (Lines.join ro sameRow isH g ot mt lines).length ≤ lines.length ∧
    (∀ sp ∈ Lines.allSpans (Lines.join ro sameRow isH g ot mt lines),
      ∃ l ∈ lines, sp ∈ l.spans) ∧
    Lines.join ro sameRow isH g ot mt [] = [] := by
  refine ⟨?_, ?_, rfl⟩
  · unfold Lines.join
    split
    · exact Nat.le_refl _
    · have h1 := foldl_joinStep_length g sameRow ot mt (Lines.sort ro sameRow isH lines) []
      have h2 := (sort_perm ro sameRow isH lines).length_eq
      simp only [List.length_nil] at h1
      omega
  · intro sp h
    unfold Lines.join at h
    split at h
    · rename_i he
      rw [List.isEmpty_iff.mp he] at h
      simp [Lines.allSpans] at h
    · rcases foldl_joinStep_spans g sameRow ot mt _ [] sp h with h2 | h2
      · simp [Lines.allSpans] at h2
      · rcases h2 with ⟨l, hl, hsp⟩
        exact ⟨l, (sort_perm ro sameRow isH lines).mem_iff.mp hl, hsp⟩

/-- C8: `Lines.strip` returns true iff some contained line reported a
modification; the aggregate bounding box is propagated to the owning
block exactly in that case (and is the aggregate of the stripped
lines); on the empty collection it returns false and propagates
nothing. -/
theorem C8_strip_flag_and_propagation (stripLine : Line → Bool × Line)
    (lines : List Line) :
    ((Lines.strip stripLine lines).1 = true ↔ ∃ l ∈ lines, (stripLine l).1 = true) ∧
    ((Lines.strip stripLine lines).2.2 = none ↔ (Lines.strip stripLine lines).1 = false) ∧
    ((Lines.strip stripLine lines).1 = true →
      (Lines.strip stripLine lines).2.2 =
        some (Lines.aggBbox (Lines.strip stripLine lines).2.1)) ∧
    Lines.strip stripLine [] = (false, [], none) := by
  refine ⟨?_, ?_, ?_, rfl⟩
  · simp [Lines.strip]
  · by_cases h : (lines.map stripLine).any (fun r => r.1)
    · simp [Lines.strip, h]
    · simp [Lines.strip, h]
  · intro h
    simp only [Lines.strip] at h ⊢
    simp only [h]
    simp

/-- C4: in `parse_line_break`, on a two-line block the comparison with
the free-space ratio threshold is strict — the first line gets
`line_break = 1` exactly when the ratio strictly exceeds the threshold
— provided the lines are distinct, do not share a row, the second
line's text is not blank and the block width is not zero; the last
line always gets `line_break = 0`. -/
theorem C4_line_break_strict_threshold (block : Block)
    (sameRow : Line → Line → Bool) (t : ℚ) (l1 l2 : Line)
    (hne : l1 ≠ l2) (hrow : sameRow l1 l2 = false)
    (hblank : isBlankText l2.text = false) (hw : Lines.blockWidth block ≠ 0) :
    Lines.parse_line_break block sameRow t [l1, l2] = Except.ok
      [{ l1 with line_break :=
          if t < (|block.bbox.idx (Lines.compareEdge block) -
              l1.bbox.idx (Lines.compareEdge block)| + Lines.deltaSpace block) /
              Lines.blockWidth block then 1 else 0 },
       { l2 with line_break := 0 }] := by
  have hne2 : ¬ l2 = l1 := fun h => hne h.symm
  by_cases hc : t < (|block.bbox.idx (Lines.compareEdge block) -
      l1.bbox.idx (Lines.compareEdge block)| + Lines.deltaSpace block) /
      Lines.blockWidth block
  · simp [Lines.parse_line_break, Lines.parseLineBreakGo, hne2, hrow, hblank, hw, hc]
  · simp [Lines.parse_line_break, Lines.parseLineBreakGo, hne2, hrow, hblank, hw, hc]

/-- A block of width 100 with non-RIGHT alignment and zero space
deltas. -/
def blockW : Block := ⟨⟨0, 0, 100, 10⟩, true, TextAlignment.LEFT, 0, 0, 0, 0⟩

/-- A line whose right edge sits 51 units from the block's right edge
(free-space ratio 0.51). -/
def lineW1 : Line := ⟨⟨0, 0, 49, 10⟩, [Span.textSpan spanAB], 0, 0, true⟩

/-- A second line with non-blank text, in a separate row. -/
def lineW2 : Line := ⟨⟨0, 12, 40, 22⟩, [Span.textSpan spanAB], 0, 0, true⟩

/-- Witness for C4 at ratio 0.51 against threshold 0.5: the first line
gets `line_break = 1`, the last line 0. -/
theorem C4_line_break_witness :
    Lines.parse_line_break blockW (fun _ _ => false) (1/2) [lineW1, lineW2] =
      Except.ok [{ lineW1 with line_break := 1 }, { lineW2 with line_break := 0 }] := by
  have hcond : (1:ℚ)/2 < (|blockW.bbox.idx (Lines.compareEdge blockW) -
      lineW1.bbox.idx (Lines.compareEdge blockW)| + Lines.deltaSpace blockW) /
      Lines.blockWidth blockW := by
    have hce : Lines.compareEdge blockW = 2 := rfl
    rw [hce]
    norm_num [blockW, lineW1, FRect.idx, Lines.deltaSpace, Lines.blockWidth,
      Lines.blockIdx0, Lines.blockIdx1]
  have hw : Lines.blockWidth blockW ≠ 0 := by
    norm_num [Lines.blockWidth, Lines.blockIdx0, Lines.blockIdx1, blockW, FRect.idx]
  have h := C4_line_break_strict_threshold blockW (fun _ _ => false) (1/2) lineW1 lineW2
    (by decide) rfl (by decide) hw
  rw [h, if_pos hcond]

end Pdf2docx
